import Mathlib

/-!
# Shallow embedding of the bootz client and server

This file embeds the bootz client (`client/client.go`) and the bootz file
based server (`server/server.go`, first entry point) in Lean 4 and proves
properties of the embedded code.

Modelling conventions:
* Go strings and byte slices that the code only ever compares, concatenates,
  length-checks or passes around are modelled as Lean `String`
  (a wrapper around `List Char`); Go treats them as byte sequences, the
  claims depend only on equality, emptiness, prefixes and suffixes.
* External library calls (base64, PKCS#7/CMS, JSON, x509 pools and chain
  verification, SHA-256, RSA, protobuf marshalling, TLS keypair loading)
  are modelled as an abstract record of oracle functions (`Crypto` resp.
  a `tlsX509KeyPair` parameter).  The embedding fixes exactly the control
  flow and the data flow of the Go code around those calls.
* Fallible Go code returning `(T, error)` is modelled with `Option`/`Except`.
-/

set_option autoImplicit false

namespace Bootz

/-! ## Go string helpers

`listHasPre s p` is Go `strings.HasPrefix` on the underlying character
lists; `listHasSuf` is `strings.HasSuffix`, `goTrimPre`/`goTrimSuf` are
`strings.TrimPrefix`/`strings.TrimSuffix` (they remove the affix only when
it is present), and `splitOnChar` is `strings.Split` with a one-character
separator. -/

def listHasPre : List Char → List Char → Bool
  | _, [] => true
  | [], _ :: _ => false
  | c :: s, p :: ps => c == p && listHasPre s ps

def listHasSuf (s suf : List Char) : Bool :=
  listHasPre s.reverse suf.reverse

def goHasPre (s p : String) : Bool := listHasPre s.data p.data

def goHasSuf (s suf : String) : Bool := listHasSuf s.data suf.data

def goTrimPre (s p : String) : String :=
  if goHasPre s p then ⟨s.data.drop p.data.length⟩ else s

def goTrimSuf (s suf : String) : String :=
  if goHasSuf s suf then ⟨s.data.take (s.data.length - suf.data.length)⟩ else s

def splitOnChar (sep : Char) : List Char → List (List Char)
  | [] => [[]]
  | c :: rest =>
    if c == sep then [] :: splitOnChar sep rest
    else
      match splitOnChar sep rest with
      | [] => [[c]]
      | h :: t => (c :: h) :: t

/-! ## `convertAddress` (client/client.go lines 58-66, identical copy in
server/server.go lines 33-40)

```go
func convertAddress(addr string) string {
    items := strings.Split(addr, ":")
    listenAddr := addr
    if len(items) == 1 {
        listenAddr = fmt.Sprintf("localhost:%v", addr)
    }
    return listenAddr
}
``` -/

def convertAddress (addr : String) : String :=
  if (splitOnChar ':' addr.data).length = 1 then "localhost:" ++ addr else addr

/-- The address the client actually dials (client/client.go line 272):
`bootzAddress := fmt.Sprintf("localhost:%v", convertAddress(*bootzAddress))`. -/
def clientBootzAddress (flagValue : String) : String :=
  "localhost:" ++ convertAddress flagValue

/-! ## Client data model (client/client.go lines 39-51 and the bootz proto
messages used by the client)

Proto getters return the zero value on an absent message, so the optional
`signed_response` submessage is an `Option` and `getNonce` returns `""`
when it is absent, mirroring `resp.GetSignedResponse().GetNonce()`.
Fields of the proto messages that the client never reads are elided. -/

structure OwnershipVoucherInner where
  createdOn : String
  expiresOn : String
  serialNumber : String
  assertion : String
  pinnedDomainCert : String
  domainCertRevocationChecks : Bool
  deriving DecidableEq

structure OwnershipVoucher where
  OV : OwnershipVoucherInner
  deriving DecidableEq

structure BootstrapDataResponse where
  serialNum : String
  deriving DecidableEq

structure SignedResponse where
  responses : List BootstrapDataResponse
  nonce : String
  deriving DecidableEq

structure GetBootstrapDataResponse where
  signedResponse : Option SignedResponse
  ownershipVoucher : String
  ownershipCertificate : String
  responseSignature : String
  deriving DecidableEq

/-- `signedResp.GetNonce()`: `""` when the submessage is absent. -/
def getNonce : Option SignedResponse → String
  | none => ""
  | some sr => sr.nonce

/-- A parsed PKCS#7 message; the client only reads its `Content`. -/
structure PKCS7 where
  content : String
  deriving DecidableEq

/-- The public key carried by an x509 certificate.  The Go type switch in
`validateArtifacts` distinguishes `*rsa.PublicKey` from every other type;
an abstract RSA key is a `Nat` handle, any other key is tagged with the
name of its Go type. -/
inductive PublicKey where
  | rsa : Nat → PublicKey
  | other : String → PublicKey
  deriving DecidableEq

structure Certificate where
  publicKey : PublicKey
  deriving DecidableEq

/-- Oracles for the external crypto/encoding libraries used by
`validateArtifacts`.  A trust pool is identified by the PEM bytes it was
built from, since each pool in the code is built from a single PEM blob:
`appendCertsFromPEM pem` is the success of `pool.AppendCertsFromPEM(pem)`,
`verifyWithChain p7 pem` is the success of `p7.VerifyWithChain(pool)` for
the pool built from `pem`, and `x509Verify cert pem` is the success of
`cert.Verify` with that pool as roots.  `certFromPemBlock` combines
`pem.Decode` + `x509.ParseCertificate` (client/client.go lines 193-199);
`protoMarshal` is `proto.Marshal` applied to the possibly-absent signed
response. -/
structure Crypto where
  base64Decode : String → Option String
  pkcs7Parse : String → Option PKCS7
  jsonUnmarshalOV : String → Option OwnershipVoucher
  appendCertsFromPEM : String → Bool
  verifyWithChain : PKCS7 → String → Bool
  certFromPemBlock : String → Option Certificate
  protoMarshal : Option SignedResponse → Option String
  sha256 : String → String
  rsaVerifyPKCS1v15 : Nat → String → String → Bool
  x509Verify : Certificate → String → Bool

/-- The distinct error exits of `validateArtifacts`, in source order. -/
inductive VError where
  | emptyOV
  | emptyOC
  | ovBase64Error
  | pkcs7ParseError
  | ovUnmarshalError
  | vendorCAPoolError
  | ovChainError
  | serialMismatch
  | ocParseError
  | ocVerifyError
  | marshalError
  | sigBase64Error
  | sigNotVerified
  | unsupportedKey : String → VError
  deriving DecidableEq

/-- `pemEncodeCert` (client/client.go lines 53-56). -/
def pemEncodeCert (contents : String) : String :=
  String.intercalate "\n"
    ["-----BEGIN CERTIFICATE-----", contents, "-----END CERTIFICATE-----"]

/-- `validateArtifacts` (client/client.go lines 72-191), statement by
statement.  Note the translation of lines 136-138,

```go
pdcPool := x509.NewCertPool()
if !pdcPool.AppendCertsFromPEM([]byte(pdCPEM)) {
    return err
}
```

where `err` is the error of `p7.VerifyWithChain` on line 115, already
known to be `nil` on this path: the function returns *success* when the
PDC cannot be added to the pool, so this branch is `Except.ok ()`. -/
def validateArtifacts (crypto : Crypto) (serialNumber : String)
    (resp : GetBootstrapDataResponse) (rootCA : String) : Except VError Unit :=
  let ov64 := resp.ownershipVoucher
  if ov64.length = 0 then Except.error VError.emptyOV
  else
    let oc := resp.ownershipCertificate
    if oc.length = 0 then Except.error VError.emptyOC
    else
      match crypto.base64Decode ov64 with
      | none => Except.error VError.ovBase64Error
      | some ov =>
        match crypto.pkcs7Parse ov with
        | none => Except.error VError.pkcs7ParseError
        | some p7 =>
          match crypto.jsonUnmarshalOV p7.content with
          | none => Except.error VError.ovUnmarshalError
          | some parsedOV =>
            if ¬ crypto.appendCertsFromPEM rootCA then
              Except.error VError.vendorCAPoolError
            else if ¬ crypto.verifyWithChain p7 rootCA then
              Except.error VError.ovChainError
            else if parsedOV.OV.serialNumber ≠ serialNumber then
              Except.error VError.serialMismatch
            else
              let pdCPEM := pemEncodeCert parsedOV.OV.pinnedDomainCert
              if ¬ crypto.appendCertsFromPEM pdCPEM then
                -- Go line 137: `return err` with `err == nil`
                Except.ok ()
              else
                match crypto.certFromPemBlock oc with
                | none => Except.error VError.ocParseError
                | some ocCert =>
                  if ¬ crypto.x509Verify ocCert pdCPEM then
                    Except.error VError.ocVerifyError
                  else
                    match crypto.protoMarshal resp.signedResponse with
                    | none => Except.error VError.marshalError
                    | some signedResponseBytes =>
                      let hashed := crypto.sha256 signedResponseBytes
                      match crypto.base64Decode resp.responseSignature with
                      | none => Except.error VError.sigBase64Error
                      | some decodedSig =>
                        match ocCert.publicKey with
                        | PublicKey.rsa pub =>
                          if ¬ crypto.rsaVerifyPKCS1v15 pub hashed decodedSig then
                            Except.error VError.sigNotVerified
                          else Except.ok ()
                        | PublicKey.other t =>
                          Except.error (VError.unsupportedKey t)

/-! ## The client `main` (client/client.go lines 211-384)

The fake device is hardcoded (lines 244-259): chassis `("Cisco", "123")`
with control cards `"123A"` (slot 1, the active card) and `"123B"`
(slot 2). -/

def chassis_Manufacturer : String := "Cisco"

def chassis_SerialNumber : String := "123"

def controlCardA_SerialNumber : String := "123A"

def controlCardB_SerialNumber : String := "123B"

/-- `activeControlCard := chassis.ControlCards[0]` (line 291). -/
def activeControlCard_SerialNumber : String := controlCardA_SerialNumber

/-- The nonce placed in the request (lines 293-302, 315): `""` in insecure
boot mode, a freshly generated value otherwise. -/
def clientNonce (insecureBoot : Bool) (generated : String) : String :=
  if insecureBoot then "" else generated

/-- The call `validateArtifacts(activeControlCard.GetSerialNumber(), resp,
rootCABytes)` made by `main` (line 334). -/
def mainValidate (crypto : Crypto) (resp : GetBootstrapDataResponse)
    (rootCA : String) : Except VError Unit :=
  validateArtifacts crypto activeControlCard_SerialNumber resp rootCA

/-- How the client `main` aborts after a successful RPC. -/
inductive ClientAbort where
  | validationError : VError → ClientAbort
  | nonceMismatch
  deriving DecidableEq

/-- The client `main` after a successful `GetBootstrapData` call
(lines 329-342): validate the artifacts only when `!*insecureBoot`
(exiting on error), then exit on `!*insecureBoot && signedResp.GetNonce()
!= nonce`; otherwise proceed to process the responses. -/
def processResponse (crypto : Crypto) (insecureBoot : Bool) (nonce : String)
    (resp : GetBootstrapDataResponse) (rootCA : String) : Except ClientAbort Unit :=
  match (if insecureBoot then Except.ok ()
         else (mainValidate crypto resp rootCA).mapError ClientAbort.validationError) with
  | Except.error e => Except.error e
  | Except.ok _ =>
    if ¬ insecureBoot ∧ getNonce resp.signedResponse ≠ nonce then
      Except.error ClientAbort.nonceMismatch
    else Except.ok ()

/-! ## Server data model and security-artifact loading (server/server.go,
first entry point, lines 1-170)

The artifact directory is modelled as an association list of
`(file name, file contents)` pairs: `os.ReadDir` yields the names in list
order and `os.ReadFile` succeeds on every listed file.  `service.OVList`
(a Go `map[string]string` filled in directory order with pairwise distinct
file names) is modelled as the association list of `(serial, blob)` pairs
in directory order. -/

structure KeyPair where
  cert : String
  key : String
  deriving DecidableEq

/-- `os.ReadFile(filepath.Join(dir, name))` over the modelled directory. -/
def readFileFS (fs : List (String × String)) (name : String) : Option String :=
  (fs.find? fun f => f.1 = name).map Prod.snd

/-- `readKeypair` (server/server.go lines 44-57): reads
`{name}_pub.pem` and `{name}_priv.pem`. -/
def readKeypair (fs : List (String × String)) (name : String) : Option KeyPair :=
  match readFileFS fs (name ++ "_pub.pem") with
  | none => none
  | some cert =>
    match readFileFS fs (name ++ "_priv.pem") with
    | none => none
    | some key => some ⟨cert, key⟩

/-- The serial a discovered OV file is indexed by (server/server.go lines
72-73): `strings.TrimSuffix(strings.TrimPrefix(f.Name(), "ov_"), ".txt")`. -/
def ovKey (name : String) : String :=
  goTrimSuf (goTrimPre name "ov_") ".txt"

/-- `readOVs` (server/server.go lines 59-81): every file whose name passes
`strings.HasPrefix(f.Name(), "ov")` is read and indexed by `ovKey`; an
empty result is an error. -/
def readOVs (fs : List (String × String)) : Option (List (String × String)) :=
  let ovs := fs.filterMap fun f =>
    if goHasPre f.1 "ov" then some (ovKey f.1, f.2) else none
  if ovs.length = 0 then none else some ovs

structure SecurityArtifacts where
  oc : KeyPair
  pdc : KeyPair
  vendorCA : KeyPair
  ov : List (String × String)
  tlsKeypair : Nat
  deriving DecidableEq

/-- `parseSecurityArtifacts` (server/server.go lines 93-121).
`tlsX509KeyPair` is the oracle for `tls.X509KeyPair` inside
`generateServerTlsCert` (lines 84-90); a TLS certificate is an abstract
`Nat` handle. -/
def parseSecurityArtifacts (tlsX509KeyPair : String → String → Option Nat)
    (fs : List (String × String)) : Option SecurityArtifacts :=
  match readKeypair fs "oc" with
  | none => none
  | some oc =>
    match readKeypair fs "pdc" with
    | none => none
    | some pdc =>
      match readKeypair fs "vendorca" with
      | none => none
      | some vendorCA =>
        match readOVs fs with
        | none => none
        | some ovs =>
          match tlsX509KeyPair pdc.cert pdc.key with
          | none => none
          | some tlsCert => some ⟨oc, pdc, vendorCA, ovs, tlsCert⟩

/-- Outcome of server startup; the steps after a successful
`parseSecurityArtifacts` (trust pool, listener, serving) are abstracted
into a continuation. -/
inductive ServerRun where
  | exited : ServerRun
  | serving : SecurityArtifacts → ServerRun
  deriving DecidableEq

/-- The server `main` up to and including artifact loading (server/server.go
lines 123-141): exit on an empty address or artifact directory, then
`log.Exit` when `parseSecurityArtifacts` fails, otherwise continue. -/
def serverMain (tlsX509KeyPair : String → String → Option Nat)
    (address artifactDir : String) (fs : List (String × String))
    (cont : SecurityArtifacts → ServerRun) : ServerRun :=
  if address = "" then ServerRun.exited
  else if artifactDir = "" then ServerRun.exited
  else
    match parseSecurityArtifacts tlsX509KeyPair fs with
    | none => ServerRun.exited
    | some sa => cont sa

/-! ## Helper lemmas -/

theorem string_data_append (s t : String) : (s ++ t).data = s.data ++ t.data := rfl

theorem splitOnChar_ne_nil (sep : Char) (l : List Char) : splitOnChar sep l ≠ [] := by
  induction l with
  | nil => simp [splitOnChar]
  | cons c rest ih =>
    rw [splitOnChar]
    split
    · simp
    · split
      · simp
      · simp

theorem length_splitOnChar_eq_one (sep : Char) (l : List Char) :
    (splitOnChar sep l).length = 1 ↔ sep ∉ l := by
  induction l with
  | nil => simp [splitOnChar]
  | cons c rest ih =>
    rw [splitOnChar]
    by_cases h : c = sep
    · subst h
      have hne := splitOnChar_ne_nil c rest
      simp only [beq_self_eq_true, if_true, List.length_cons, List.mem_cons]
      constructor
      · intro hlen
        exact absurd (List.length_eq_zero.mp (by omega)) hne
      · intro hmem
        exact absurd (fun hor => hmem hor) (by simp)
    · have hb : (c == sep) = false := by simp [Ne.symm, h]
      rw [hb]
      simp only [Bool.false_eq_true, if_false]
      obtain ⟨hd, tl, hr⟩ := List.exists_cons_of_ne_nil (splitOnChar_ne_nil sep rest)
      rw [hr]
      rw [hr] at ih
      simp only [List.length_cons, List.mem_cons] at ih ⊢
      constructor
      · intro hlen hmem
        rcases hmem with h1 | h2
        · exact h h1.symm
        · exact ih.mp hlen h2
      · intro hmem
        exact ih.mpr fun hm => hmem (Or.inr hm)

theorem convertAddress_mem (a : String) (h : ':' ∈ a.data) : convertAddress a = a := by
  have hlen : ¬ (splitOnChar ':' a.data).length = 1 := fun hl =>
    (length_splitOnChar_eq_one ':' a.data).mp hl h
  rw [convertAddress, if_neg hlen]

theorem convertAddress_not_mem (a : String) (h : ':' ∉ a.data) :
    convertAddress a = "localhost:" ++ a := by
  rw [convertAddress, if_pos ((length_splitOnChar_eq_one ':' a.data).mpr h)]

theorem colon_mem_convertAddress (a : String) : ':' ∈ (convertAddress a).data := by
  by_cases h : ':' ∈ a.data
  · rw [convertAddress_mem a h]; exact h
  · rw [convertAddress_not_mem a h, string_data_append]
    exact List.mem_append.mpr (Or.inl (by decide))

/-! ## Claims about `convertAddress` and the dialed address -/

/-- C10: `convertAddress` is idempotent; every input containing a colon is
returned unchanged, and every output contains a colon. -/
theorem claim10_convertAddress_idem : ∀ a : String,
    convertAddress (convertAddress a) = convertAddress a ∧
    (':' ∈ a.data → convertAddress a = a) ∧
    ':' ∈ (convertAddress a).data := by
  intro a
  exact ⟨convertAddress_mem _ (colon_mem_convertAddress a),
    fun h => convertAddress_mem a h, colon_mem_convertAddress a⟩

theorem claim10_witness :
    (':' ∈ ("10.0.0.5:90" : String).data) ∧ convertAddress "10.0.0.5:90" = "10.0.0.5:90" :=
  ⟨by decide, (claim10_convertAddress_idem "10.0.0.5:90").2.1 (by decide)⟩

/-- C5 (code bug): the address the client `main` dials is
`"localhost:" ++ convertAddress(flag)` (client/client.go line 272), so a
flag value already containing a colon is dialed as
`localhost:<flag>` rather than as the flag value itself, and a bare port
is dialed as `localhost:localhost:<port>` rather than `localhost:<port>`. -/
theorem claim5_dial_eval :
    clientBootzAddress "192.0.2.1:8008" = "localhost:192.0.2.1:8008" ∧
    clientBootzAddress "8008" = "localhost:localhost:8008" ∧
    ("localhost:192.0.2.1:8008" : String) ≠ "192.0.2.1:8008" ∧
    ("localhost:localhost:8008" : String) ≠ "localhost:8008" :=
  ⟨by decide, by decide, by decide, by decide⟩

/-! ## Claims about the OV loader -/

theorem listHasPre_nil (l : List Char) : listHasPre l [] = true := by
  cases l <;> rfl

theorem listHasPre_append (p r : List Char) : listHasPre (p ++ r) p = true := by
  induction p with
  | nil => rw [List.nil_append]; exact listHasPre_nil r
  | cons c ps ih => simp [listHasPre, ih]

theorem ovKey_wellformed (s : String) : ovKey ("ov_" ++ s ++ ".txt") = s := by
  have hdata : ("ov_" ++ s ++ ".txt").data =
      ("ov_" : String).data ++ (s.data ++ (".txt" : String).data) := by
    rw [string_data_append, string_data_append, List.append_assoc]
  have hpre : goHasPre ("ov_" ++ s ++ ".txt") "ov_" = true := by
    rw [goHasPre, hdata]; exact listHasPre_append _ _
  have htrim : goTrimPre ("ov_" ++ s ++ ".txt") "ov_" = s ++ ".txt" := by
    rw [goTrimPre, if_pos hpre, hdata, List.drop_left]
    rfl
  have hsuf : goHasSuf (s ++ ".txt") ".txt" = true := by
    rw [goHasSuf, listHasSuf, string_data_append, List.reverse_append]
    exact listHasPre_append _ _
  have hlen4 : (".txt" : String).data.length = 4 := rfl
  rw [ovKey, htrim, goTrimSuf, if_pos hsuf, string_data_append, List.length_append, hlen4,
    Nat.add_sub_cancel, List.take_left]

theorem readOVs_mem_of (fs : List (String × String)) (name c : String)
    (hmem : (name, c) ∈ fs) (hp : goHasPre name "ov" = true) :
    (ovKey name, c) ∈ (readOVs fs).getD [] := by
  have hm2 : (ovKey name, c) ∈ fs.filterMap
      (fun f => if goHasPre f.1 "ov" then some (ovKey f.1, f.2) else none) := by
    exact List.mem_filterMap.mpr ⟨(name, c), hmem, by simp [hp]⟩
  have hne : ¬ (fs.filterMap
      (fun f => if goHasPre f.1 "ov" then some (ovKey f.1, f.2) else none)).length = 0 := by
    intro h0
    rw [List.length_eq_zero.mp h0] at hm2
    exact absurd hm2 (List.not_mem_nil _)
  rw [readOVs]
  simp only [if_neg hne, Option.getD_some]
  exact hm2

theorem readOVs_mem_inv (fs : List (String × String)) (l : List (String × String))
    (k c : String) (hr : readOVs fs = some l) (hm : (k, c) ∈ l) :
    ∃ name, (name, c) ∈ fs ∧ goHasPre name "ov" = true ∧ k = ovKey name := by
  rw [readOVs] at hr
  by_cases h0 : (fs.filterMap
      (fun f => if goHasPre f.1 "ov" then some (ovKey f.1, f.2) else none)).length = 0
  · rw [if_pos h0] at hr; exact absurd hr (by simp)
  · rw [if_neg h0] at hr
    injection hr with hl
    subst hl
    obtain ⟨⟨name, c0⟩, hmemfs, hf⟩ := List.mem_filterMap.mp hm
    by_cases hgp : goHasPre name "ov" = true
    · rw [if_pos hgp] at hf
      injection hf with hpair
      injection hpair with hk hc
      exact ⟨name, hc ▸ hmemfs, hgp, hk.symm⟩
    · rw [if_neg hgp] at hf
      exact absurd hf (by simp)

/-- C4 (amended): the loader loads exactly the files whose names start with
`"ov"` (not `"ov_"`, and with no `.txt` requirement), indexing each blob by
the name with a leading `"ov_"` removed when present and a trailing `".txt"`
removed when present; for well-formed names `ov_<serial>.txt` the index is
`<serial>`. -/
theorem claim4_amended :
    (∀ s : String, ovKey ("ov_" ++ s ++ ".txt") = s) ∧
    (∀ (fs : List (String × String)) (name c : String), (name, c) ∈ fs →
      goHasPre name "ov" = true → (ovKey name, c) ∈ (readOVs fs).getD []) ∧
    (∀ (fs l : List (String × String)) (k c : String), readOVs fs = some l → (k, c) ∈ l →
      ∃ name, (name, c) ∈ fs ∧ goHasPre name "ov" = true ∧ k = ovKey name) :=
  ⟨ovKey_wellformed, readOVs_mem_of, readOVs_mem_inv⟩

theorem claim4_witness :
    (ovKey "ov_123.txt", "BLOB") ∈ (readOVs [("ov_123.txt", "BLOB")]).getD [] :=
  claim4_amended.2.1 [("ov_123.txt", "BLOB")] "ov_123.txt" "BLOB" (by decide) (by decide)

/-- C4 (counterexample): `readOVs` loads `oven.txt`, which does not start
with `ov_`, and `ov_abc`, which does not end in `.txt`; the claim says
neither is loaded. -/
theorem claim4_cex :
    readOVs [("oven.txt", "X")] = some [("oven", "X")] ∧
    goHasPre "oven.txt" "ov_" = false ∧
    readOVs [("ov_abc", "Y")] = some [("abc", "Y")] ∧
    goHasSuf "ov_abc" ".txt" = false :=
  ⟨by decide, by decide, by decide, by decide⟩

/-! ## Concrete oracle instances used by witnesses and counterexamples

`okCrypto` is a crypto oracle on which every check succeeds: base64
decoding is the identity, the CMS payload is the blob itself, the decoded
voucher carries the payload as its serial number and pins `"PDC"`, every
pool append, chain verification and signature verification succeeds, and
the OC carries RSA key `0`.  Such a run is realizable: it is the happy
path of the protocol with a correctly signed voucher and response. -/

def okCrypto : Crypto :=
  ⟨fun s => some s, fun s => some ⟨s⟩, fun s => some ⟨⟨"", "", s, "", "PDC", false⟩⟩,
   fun _ => true, fun _ _ => true, fun _ => some ⟨PublicKey.rsa 0⟩,
   fun _ => some "", fun s => s, fun _ _ _ => true, fun _ _ => true⟩

/-- A response whose decoded voucher (under `okCrypto`) carries serial
number `"123A"`, the serial of the active control card. -/
def okResp : GetBootstrapDataResponse := ⟨some ⟨[], "N"⟩, "123A", "OC", "SIG"⟩

/-- A response whose decoded voucher (under `okCrypto`) carries serial
number `"123"`, the chassis serial. -/
def resp123 : GetBootstrapDataResponse := ⟨some ⟨[], "N"⟩, "123", "OC", "SIG"⟩

/-! ## C1: which serial is compared against the voucher -/

/-- C1 (counterexample): under an oracle on which every check passes, a
response whose voucher carries the *chassis* serial `"123"` is rejected
with a serial mismatch, while a response whose voucher carries the active
control card serial `"123A"` — which differs from the chassis serial — is
accepted; the claim says validation fails exactly when the voucher serial
differs from the chassis serial. -/
theorem claim1_cex :
    mainValidate okCrypto okResp "CA" = Except.ok () ∧
    okCrypto.jsonUnmarshalOV "123A" = some ⟨⟨"", "", "123A", "", "PDC", false⟩⟩ ∧
    ("123A" : String) ≠ chassis_SerialNumber ∧
    mainValidate okCrypto resp123 "CA" = Except.error VError.serialMismatch ∧
    okCrypto.jsonUnmarshalOV "123" = some ⟨⟨"", "", "123", "", "PDC", false⟩⟩ ∧
    ("123" : String) = chassis_SerialNumber :=
  ⟨rfl, rfl, by decide, rfl, rfl, rfl⟩

/-- C1 (amended): the serial number `main` passes to `validateArtifacts`
is the *active control card* serial of the request
(`activeControlCard.GetSerialNumber()`, client/client.go line 334), not
the chassis serial; given that the checks before the serial comparison
pass, validation fails with a serial mismatch exactly when the voucher's
`serial-number` differs from that control-card serial. -/
theorem claim1_amended : ∀ (crypto : Crypto) (rootCA : String)
    (resp : GetBootstrapDataResponse) (ov : String) (p7 : PKCS7) (pv : OwnershipVoucher),
    resp.ownershipVoucher.length ≠ 0 →
    resp.ownershipCertificate.length ≠ 0 →
    crypto.base64Decode resp.ownershipVoucher = some ov →
    crypto.pkcs7Parse ov = some p7 →
    crypto.jsonUnmarshalOV p7.content = some pv →
    crypto.appendCertsFromPEM rootCA = true →
    crypto.verifyWithChain p7 rootCA = true →
    (mainValidate crypto resp rootCA = Except.error VError.serialMismatch ↔
      pv.OV.serialNumber ≠ activeControlCard_SerialNumber) := by
  intro crypto rootCA resp ov p7 pv h1 h2 h3 h4 h5 h6 h7
  simp only [mainValidate, validateArtifacts, h1, h2, h3, h4, h5, h6, h7, if_neg h1, if_neg h2,
    Bool.not_true, not_false_eq_true, ite_false, ite_true, if_false, if_true, not_true_eq_false]
  by_cases hs : pv.OV.serialNumber = activeControlCard_SerialNumber
  · rw [if_neg (show ¬ pv.OV.serialNumber ≠ activeControlCard_SerialNumber from by simp [hs])]
    rw [ne_eq, iff_false_intro (not_not_intro hs), iff_false]
    intro hEq
    split at hEq
    all_goals try split at hEq
    all_goals try split at hEq
    all_goals try split at hEq
    all_goals try split at hEq
    all_goals try split at hEq
    all_goals try split at hEq
    all_goals simp_all
  · rw [if_pos hs]
    exact ⟨fun _ => hs, fun _ => rfl⟩

theorem claim1_witness :
    mainValidate okCrypto resp123 "CA" = Except.error VError.serialMismatch :=
  (claim1_amended okCrypto "CA" resp123 "123" ⟨"123"⟩ ⟨⟨"", "", "123", "", "PDC", false⟩⟩
    (by decide) (by decide) rfl rfl rfl rfl rfl).mpr (by decide)

/-! ## C2: the PDC pool bug -/

/-- An oracle on which every check up to the serial comparison succeeds but
the re-armored pinned domain cert `"JUNK"` yields no certificate when
appended to the PDC pool, the OC never chains to the PDC, and no signature
ever verifies. -/
def c2Crypto : Crypto :=
  ⟨fun s => some s, fun s => some ⟨s⟩, fun s => some ⟨⟨"", "", s, "", "JUNK", false⟩⟩,
   fun s => s == "VENDORCA", fun _ _ => true, fun _ => some ⟨PublicKey.rsa 0⟩,
   fun _ => some "", fun s => s, fun _ _ _ => false, fun _ _ => false⟩

def c2Resp : GetBootstrapDataResponse := ⟨some ⟨[], "N"⟩, "123A", "OC", "SIG"⟩

/-- C2 (code bug, client/client.go lines 136-138): when
`pdcPool.AppendCertsFromPEM(pdCPEM)` fails, `validateArtifacts` executes
`return err` with `err` still `nil` from the earlier
`p7.VerifyWithChain`, so it returns *success*, skipping the OC chain and
signature checks entirely — here even though the OC does not chain to the
PDC and the signature does not verify. -/
theorem claim2_bug_eval :
    validateArtifacts c2Crypto activeControlCard_SerialNumber c2Resp "VENDORCA" = Except.ok () ∧
    c2Crypto.appendCertsFromPEM (pemEncodeCert "JUNK") = false ∧
    c2Crypto.x509Verify ⟨PublicKey.rsa 0⟩ (pemEncodeCert "JUNK") = false ∧
    c2Crypto.rsaVerifyPKCS1v15 0 "" "SIG" = false :=
  ⟨rfl, rfl, rfl, rfl⟩

/-! ## C3: presence checks -/

/-- Like `okCrypto`, but no signature ever verifies (as with real RSA and
an empty signature). -/
def c3Crypto : Crypto :=
  ⟨fun s => some s, fun s => some ⟨s⟩, fun s => some ⟨⟨"", "", s, "", "PDC", false⟩⟩,
   fun _ => true, fun _ _ => true, fun _ => some ⟨PublicKey.rsa 0⟩,
   fun _ => some "", fun s => s, fun _ _ _ => false, fun _ _ => true⟩

/-- A response with a non-empty OV and OC but an *empty* signature. -/
def c3Resp : GetBootstrapDataResponse := ⟨some ⟨[], "N"⟩, "123A", "OC", ""⟩

/-- C3 (counterexample): an empty `response_signature` is not rejected by
a missing-artifact check before decoding and chain verification; the run
proceeds through every decode and chain check and fails only at RSA
signature verification. -/
theorem claim3_cex :
    c3Resp.responseSignature.length = 0 ∧
    validateArtifacts c3Crypto activeControlCard_SerialNumber c3Resp "CA" =
      Except.error VError.sigNotVerified ∧
    VError.sigNotVerified ≠ VError.emptyOV ∧ VError.sigNotVerified ≠ VError.emptyOC :=
  ⟨rfl, rfl, by decide, by decide⟩

/-- C3 (amended): an empty ownership voucher and an empty ownership
certificate are each rejected upfront with the corresponding
missing-artifact error before any decoding; the response signature has no
presence check — an empty signature is base64-decoded (to the empty
string) and rejected only at the RSA verification step. -/
theorem claim3_amended : ∀ (crypto : Crypto) (sn rootCA : String)
    (resp : GetBootstrapDataResponse),
    (resp.ownershipVoucher.length = 0 →
      validateArtifacts crypto sn resp rootCA = Except.error VError.emptyOV) ∧
    (resp.ownershipVoucher.length ≠ 0 → resp.ownershipCertificate.length = 0 →
      validateArtifacts crypto sn resp rootCA = Except.error VError.emptyOC) ∧
    (∀ (ov body : String) (p7 : PKCS7) (pv : OwnershipVoucher) (ocCert : Certificate) (k : Nat),
      resp.responseSignature = "" →
      resp.ownershipVoucher.length ≠ 0 →
      resp.ownershipCertificate.length ≠ 0 →
      crypto.base64Decode resp.ownershipVoucher = some ov →
      crypto.pkcs7Parse ov = some p7 →
      crypto.jsonUnmarshalOV p7.content = some pv →
      crypto.appendCertsFromPEM rootCA = true →
      crypto.verifyWithChain p7 rootCA = true →
      pv.OV.serialNumber = sn →
      crypto.appendCertsFromPEM (pemEncodeCert pv.OV.pinnedDomainCert) = true →
      crypto.certFromPemBlock resp.ownershipCertificate = some ocCert →
      crypto.x509Verify ocCert (pemEncodeCert pv.OV.pinnedDomainCert) = true →
      ocCert.publicKey = PublicKey.rsa k →
      crypto.protoMarshal resp.signedResponse = some body →
      crypto.base64Decode "" = some "" →
      crypto.rsaVerifyPKCS1v15 k (crypto.sha256 body) "" = false →
      validateArtifacts crypto sn resp rootCA = Except.error VError.sigNotVerified) := by
  intro crypto sn rootCA resp
  refine ⟨fun h0 => ?_, fun h1 h0 => ?_, ?_⟩
  · simp only [validateArtifacts, if_pos h0]
  · simp only [validateArtifacts, if_neg h1, if_pos h0]
  · intro ov body p7 pv ocCert k hsig h1 h2 h3 h4 h5 h6 h7 h8 h9 h10 h10b h11 h12 h13 h14
    simp only [validateArtifacts, if_neg h1, if_neg h2, h3, h4, h5, h6, h7, h9, h10, h10b, h11,
      h12, hsig, h13, h14, Bool.not_true, not_true_eq_false, ite_false, ite_true,
      Bool.false_eq_true, if_false, if_true]
    rw [if_neg (show ¬ pv.OV.serialNumber ≠ sn from by simp [h8])]
    simp [h9, h10, h10b, h11, h12, h13, h14]

theorem claim3_witness :
    validateArtifacts c3Crypto "123A" c3Resp "CA" = Except.error VError.sigNotVerified :=
  (claim3_amended c3Crypto "123A" "CA" c3Resp).2.2 "123A" "" ⟨"123A"⟩
    ⟨⟨"", "", "123A", "", "PDC", false⟩⟩ ⟨PublicKey.rsa 0⟩ 0
    rfl (by decide) (by decide) rfl rfl rfl rfl rfl rfl rfl rfl rfl rfl rfl rfl rfl

/-! ## C6 and C7: nonce echo and insecure mode -/

/-- C6: in secure boot mode the client proceeds past the nonce gate only
when the echoed nonce equals the one it sent; after successful artifact
validation, a differing nonce aborts with a nonce mismatch and an equal
nonce proceeds. -/
theorem claim6_nonce_echo : ∀ (crypto : Crypto) (nonce rootCA : String)
    (resp : GetBootstrapDataResponse),
    (processResponse crypto false nonce resp rootCA = Except.ok () →
      getNonce resp.signedResponse = nonce) ∧
    (mainValidate crypto resp rootCA = Except.ok () →
      (getNonce resp.signedResponse ≠ nonce →
        processResponse crypto false nonce resp rootCA = Except.error ClientAbort.nonceMismatch) ∧
      (getNonce resp.signedResponse = nonce →
        processResponse crypto false nonce resp rootCA = Except.ok ())) := by
  intro crypto nonce rootCA resp
  constructor
  · intro h
    unfold processResponse at h
    cases hv : mainValidate crypto resp rootCA with
    | error e => simp [hv, Except.mapError] at h
    | ok u =>
      simp only [hv, Except.mapError, if_false, Bool.false_eq_true, ite_false] at h
      by_cases hn : getNonce resp.signedResponse = nonce
      · exact hn
      · simp [hn] at h
  · intro hv
    constructor
    · intro hn
      simp [processResponse, hv, Except.mapError, hn]
    · intro hn
      simp [processResponse, hv, Except.mapError, hn]

theorem claim6_witness :
    processResponse okCrypto false "N" okResp "CA" = Except.ok () :=
  ((claim6_nonce_echo okCrypto "N" "CA" okResp).2 rfl).2 rfl

/-- C7: with `insecure_boot=true` the client sends an empty nonce and
accepts any response as-is: no validation and no nonce comparison is
performed, whatever the oracles would say. -/
theorem claim7_insecure_skips_checks : ∀ (crypto : Crypto) (generated nonce rootCA : String)
    (resp : GetBootstrapDataResponse),
    clientNonce true generated = "" ∧
    processResponse crypto true nonce resp rootCA = Except.ok () := by
  intro crypto generated nonce rootCA resp
  refine ⟨rfl, ?_⟩
  simp [processResponse]

/-! ## C8: server startup -/

theorem readOVs_some_ne_nil (fs l : List (String × String)) (h : readOVs fs = some l) :
    l ≠ [] := by
  rw [readOVs] at h
  by_cases h0 : (fs.filterMap
      (fun f => if goHasPre f.1 "ov" then some (ovKey f.1, f.2) else none)).length = 0
  · rw [if_pos h0] at h; exact absurd h (by simp)
  · rw [if_neg h0] at h
    injection h with hl
    subst hl
    exact fun hnil => h0 (by rw [hnil]; rfl)

/-- C8: `parseSecurityArtifacts` succeeds only when the OC, PDC and
VendorCA keypairs all load and the discovered OV set is non-empty, and
when it fails the server `main` exits instead of continuing to serve. -/
theorem claim8_startup : ∀ (tlsKP : String → String → Option Nat) (fs : List (String × String)),
    ((parseSecurityArtifacts tlsKP fs).isSome →
      (readKeypair fs "oc").isSome ∧ (readKeypair fs "pdc").isSome ∧
      (readKeypair fs "vendorca").isSome ∧ (readOVs fs).isSome ∧ (readOVs fs).getD [] ≠ []) ∧
    (∀ (address artifactDir : String) (cont : SecurityArtifacts → ServerRun),
      parseSecurityArtifacts tlsKP fs = none →
      serverMain tlsKP address artifactDir fs cont = ServerRun.exited) := by
  intro tlsKP fs
  constructor
  · intro h
    unfold parseSecurityArtifacts at h
    cases hoc : readKeypair fs "oc" with
    | none => rw [hoc] at h; exact absurd h (by simp)
    | some oc =>
      rw [hoc] at h
      cases hpdc : readKeypair fs "pdc" with
      | none => rw [hpdc] at h; exact absurd h (by simp)
      | some pdc =>
        rw [hpdc] at h
        cases hvca : readKeypair fs "vendorca" with
        | none => rw [hvca] at h; exact absurd h (by simp)
        | some vca =>
          rw [hvca] at h
          cases hov : readOVs fs with
          | none => rw [hov] at h; exact absurd h (by simp)
          | some ovs =>
            refine ⟨by simp [hoc], by simp [hpdc], by simp [hvca], by simp [hov], ?_⟩
            rw [Option.getD_some]
            exact readOVs_some_ne_nil fs ovs hov
  · intro address artifactDir cont hparse
    unfold serverMain
    by_cases ha : address = ""
    · rw [if_pos ha]
    · rw [if_neg ha]
      by_cases hd : artifactDir = ""
      · rw [if_pos hd]
      · rw [if_neg hd, hparse]

theorem claim8_witness :
    serverMain (fun _ _ => none) "8008" "../testdata/" [] ServerRun.serving = ServerRun.exited :=
  (claim8_startup (fun _ _ => none) []).2 "8008" "../testdata/" ServerRun.serving rfl

/-! ## C9: response-signature verification -/

/-- C9: once the checks before the signature step pass, the validator
verifies with RSA PKCS#1 v1.5 exactly the SHA-256 hash of the serialized
`signed_response` against the base64-decoded `response_signature` under
the OC's public key, succeeding exactly when that verification succeeds;
and when the OC's public key is not an RSA key it refuses with an
unsupported-key error instead of attempting verification. -/
theorem claim9_signature : ∀ (crypto : Crypto) (sn rootCA : String)
    (resp : GetBootstrapDataResponse) (ov body ds : String) (p7 : PKCS7)
    (pv : OwnershipVoucher) (ocCert : Certificate),
    resp.ownershipVoucher.length ≠ 0 →
    resp.ownershipCertificate.length ≠ 0 →
    crypto.base64Decode resp.ownershipVoucher = some ov →
    crypto.pkcs7Parse ov = some p7 →
    crypto.jsonUnmarshalOV p7.content = some pv →
    crypto.appendCertsFromPEM rootCA = true →
    crypto.verifyWithChain p7 rootCA = true →
    pv.OV.serialNumber = sn →
    crypto.appendCertsFromPEM (pemEncodeCert pv.OV.pinnedDomainCert) = true →
    crypto.certFromPemBlock resp.ownershipCertificate = some ocCert →
    crypto.x509Verify ocCert (pemEncodeCert pv.OV.pinnedDomainCert) = true →
    crypto.protoMarshal resp.signedResponse = some body →
    crypto.base64Decode resp.responseSignature = some ds →
    ((∀ t : String, ocCert.publicKey = PublicKey.other t →
        validateArtifacts crypto sn resp rootCA = Except.error (VError.unsupportedKey t)) ∧
     (∀ k : Nat, ocCert.publicKey = PublicKey.rsa k →
        (validateArtifacts crypto sn resp rootCA = Except.ok () ↔
          crypto.rsaVerifyPKCS1v15 k (crypto.sha256 body) ds = true))) := by
  intro crypto sn rootCA resp ov body ds p7 pv ocCert
  intro h1 h2 h3 h4 h5 h6 h7 h8 h9 h10 h11 h12 h13
  have hmain : ∀ key, ocCert.publicKey = key →
      validateArtifacts crypto sn resp rootCA =
        (match key with
         | PublicKey.rsa pub =>
           if ¬ crypto.rsaVerifyPKCS1v15 pub (crypto.sha256 body) ds then
             Except.error VError.sigNotVerified
           else Except.ok ()
         | PublicKey.other t => Except.error (VError.unsupportedKey t)) := by
    intro key hkey
    simp only [validateArtifacts, if_neg h1, if_neg h2, h3, h4, h5, h6, h7, h9, h10, h11, h12,
      h13, hkey, Bool.not_true, not_true_eq_false, ite_false, ite_true, Bool.false_eq_true,
      if_false, if_true]
    try rw [if_neg (show ¬ pv.OV.serialNumber ≠ sn from by simp [h8])]
    try simp [h8, h9, h10, h11, h12, h13]
  constructor
  · intro t ht
    rw [hmain (PublicKey.other t) ht]
  · intro k hk
    rw [hmain (PublicKey.rsa k) hk]
    by_cases hr : crypto.rsaVerifyPKCS1v15 k (crypto.sha256 body) ds = true
    · simp [hr]
    · simp [hr]

/-- Like `okCrypto`, but the parsed OC carries a non-RSA (ECDSA) key. -/
def c9Crypto : Crypto :=
  ⟨fun s => some s, fun s => some ⟨s⟩, fun s => some ⟨⟨"", "", s, "", "PDC", false⟩⟩,
   fun _ => true, fun _ _ => true, fun _ => some ⟨PublicKey.other "*ecdsa.PublicKey"⟩,
   fun _ => some "", fun s => s, fun _ _ _ => true, fun _ _ => true⟩

theorem claim9_witness :
    validateArtifacts c9Crypto "123A" okResp "CA" =
      Except.error (VError.unsupportedKey "*ecdsa.PublicKey") :=
  ((claim9_signature c9Crypto "123A" "CA" okResp "123A" "" "SIG" ⟨"123A"⟩
      ⟨⟨"", "", "123A", "", "PDC", false⟩⟩ ⟨PublicKey.other "*ecdsa.PublicKey"⟩
      (by decide) (by decide) rfl rfl rfl rfl rfl rfl rfl rfl rfl rfl rfl).1)
    "*ecdsa.PublicKey" rfl

end Bootz
